import Mathlib

/-!
Verification development for a sled-backed imageboard persistence layer
(single Rust source file).  The embedding models:

* JSON values as stored record bytes (`Json`), with serde-derive style
  serialization and deserialization for the `Thread` and `Reply` structs;
* the ordered key-value store as an association list over `List Char`
  keys (`Store`), with `get`, `insert` (overwrite) and prefix scan;
* the decimal rendering used by Rust `format!` for building keys;
* the repository operations `get_all_threads`, `count_threads`,
  `get_replies`, `count_replies`, `create_thread`, `create_reply`, the
  thread lookup of `view_thread`, and the pagination arithmetic of the
  `homepage` handler.

Integer fields (`i32`, `i64`) are modelled as `Int`; the reachable
arithmetic in the handlers stays far from the overflow boundaries, and
range checks appear exactly where serde performs them (deserialization
of numeric fields).
-/

/-- Data model of the `Thread` struct (main.rs lines 35-42). -/
structure Thread where
  id : Int
  title : String
  message : String
  last_updated : Int
  image_url : Option String
deriving DecidableEq

/-- Data model of the `Reply` struct (main.rs lines 44-48). -/
structure Reply where
  id : Int
  message : String
deriving DecidableEq

/-- JSON values, standing for the serialized bytes stored in sled.  A
stored value that is not the serialization of the expected struct plays
the role of malformed bytes. -/
inductive Json where
  | null : Json
  | bool : Bool → Json
  | num : Int → Json
  | str : String → Json
  | arr : List Json → Json
  | obj : List (String × Json) → Json

/-- Serde-style serialization of a `Thread`: fields in declaration
order, `Option` rendered as the value or `null`. -/
def threadToJson (t : Thread) : Json :=
  Json.obj [("id", Json.num t.id), ("title", Json.str t.title),
    ("message", Json.str t.message), ("last_updated", Json.num t.last_updated),
    ("image_url", match t.image_url with | some u => Json.str u | none => Json.null)]

/-- Serde-style serialization of a `Reply`. -/
def replyToJson (r : Reply) : Json :=
  Json.obj [("id", Json.num r.id), ("message", Json.str r.message)]

/-- First-match field lookup in a JSON object, as serde-derive reads a
struct field from a map. -/
def jsonLookup (fields : List (String × Json)) (name : String) : Option Json :=
  match fields with
  | [] => none
  | (k, v) :: rest => if k = name then some v else jsonLookup rest name

/-- Deserialize an `i32` field: a JSON number within the `i32` range. -/
def asI32 : Json → Option Int
  | Json.num n => if -2147483648 ≤ n ∧ n < 2147483648 then some n else none
  | _ => none

/-- Deserialize an `i64` field: a JSON number within the `i64` range. -/
def asI64 : Json → Option Int
  | Json.num n =>
    if -9223372036854775808 ≤ n ∧ n < 9223372036854775808 then some n else none
  | _ => none

/-- Deserialize a `String` field. -/
def asStr : Json → Option String
  | Json.str s => some s
  | _ => none

/-- Deserialize an `Option<String>` field: a missing field or `null`
is `None`, a string is `Some`, anything else is a type error. -/
def asOptStr : Option Json → Option (Option String)
  | none => some none
  | some Json.null => some none
  | some (Json.str s) => some (some s)
  | some _ => none

/-- Serde-derive deserialization of a `Thread` from a JSON value
(`serde_json::from_slice::<Thread>`): every non-`Option` field must be
present with the right type, `image_url` defaults to `None`. -/
def threadFromJson : Json → Option Thread
  | Json.obj fields =>
    match (jsonLookup fields "id").bind asI32,
          (jsonLookup fields "title").bind asStr,
          (jsonLookup fields "message").bind asStr,
          (jsonLookup fields "last_updated").bind asI64,
          asOptStr (jsonLookup fields "image_url") with
    | some i, some ttl, some msg, some lu, some img => some ⟨i, ttl, msg, lu, img⟩
    | _, _, _, _, _ => none
  | _ => none

/-- Serde-derive deserialization of a `Reply` from a JSON value. -/
def replyFromJson : Json → Option Reply
  | Json.obj fields =>
    match (jsonLookup fields "id").bind asI32,
          (jsonLookup fields "message").bind asStr with
    | some i, some msg => some ⟨i, msg⟩
    | _, _ => none
  | _ => none

/-- The sled store: an association list from byte keys (modelled as
character lists, the keys are ASCII) to stored values.  Keys are
unique; `storeInsert` overwrites in place like `sled::Db::insert`. -/
abbrev Store := List (List Char × Json)

/-- Model of `db.get(key)`. -/
def storeGet (store : Store) (key : List Char) : Option Json :=
  match store with
  | [] => none
  | (k, v) :: rest => if k = key then some v else storeGet rest key

/-- Model of `db.insert(key, value)`: overwrite the binding if the key
is present, otherwise add it. -/
def storeInsert (store : Store) (key : List Char) (v : Json) : Store :=
  match store with
  | [] => [(key, v)]
  | (k, w) :: rest =>
    if k = key then (key, v) :: rest else (k, w) :: storeInsert rest key v

/-- Model of `db.scan_prefix(p)`: all records whose key starts with the
given byte sequence. -/
def prefixScan (store : Store) (p : List Char) : Store :=
  store.filter (fun kv => p.isPrefixOf kv.1)

/-- Fuelled decimal rendering helper (most significant digit first). -/
def natCharsAux : Nat → Nat → List Char
  | 0, _ => []
  | Nat.succ fuel, n =>
    if n < 10 then [Nat.digitChar n]
    else natCharsAux fuel (n / 10) ++ [Nat.digitChar (n % 10)]

/-- Decimal rendering of a natural number, as Rust `format!` prints it. -/
def natChars (n : Nat) : List Char := natCharsAux (n + 1) n

/-- Decimal rendering of an `i32`, as Rust `format!` prints it. -/
def intChars (i : Int) : List Char :=
  if i < 0 then '-' :: natChars i.natAbs else natChars i.toNat

/-- The scan prefix for thread records: `b"thread_"` (main.rs 136, 149). -/
def threadScanPfx : List Char := ['t', 'h', 'r', 'e', 'a', 'd', '_']

/-- Thread record key: `format!("thread_{}", id)` (main.rs 158, 263, 300). -/
def threadKey (id : Int) : List Char := threadScanPfx ++ intChars id

/-- The scan prefix used for replies of one parent:
`format!("reply_{}", parent_id)` (main.rs 320, 333).  Note the absence
of a trailing underscore after the parent id. -/
def replyScanPfx (parent_id : Int) : List Char :=
  ['r', 'e', 'p', 'l', 'y', '_'] ++ intChars parent_id

/-- Reply record key: `format!("reply_{}_{}", parent_id, reply_id)`
(main.rs 295). -/
def replyKey (parent_id reply_id : Int) : List Char :=
  ['r', 'e', 'p', 'l', 'y', '_'] ++ intChars parent_id ++ '_' :: intChars reply_id

/-- Rust `char::is_whitespace`: the Unicode White_Space property. -/
def isRustWhitespace (c : Char) : Bool :=
  let n := c.toNat
  (n == 0x9) || (n == 0xA) || (n == 0xB) || (n == 0xC) || (n == 0xD) ||
  (n == 0x20) || (n == 0x85) || (n == 0xA0) || (n == 0x1680) ||
  (0x2000 ≤ n && n ≤ 0x200A) || (n == 0x2028) || (n == 0x2029) ||
  (n == 0x202F) || (n == 0x205F) || (n == 0x3000)

/-- Remove leading and trailing whitespace from a character list. -/
def trimChars (cs : List Char) : List Char :=
  ((cs.dropWhile isRustWhitespace).reverse.dropWhile isRustWhitespace).reverse

/-- Model of Rust `str::trim`. -/
def rustTrim (s : String) : String := ⟨trimChars s.data⟩

/-- Model of `get_all_threads` (main.rs 135-145): scan the `thread_`
prefix, keep the records that deserialize, skip the rest. -/
def get_all_threads (store : Store) : List Thread :=
  (prefixScan store threadScanPfx).filterMap (fun kv => threadFromJson kv.2)

/-- Model of `count_threads` (main.rs 148-150): the number of raw
records under the `thread_` prefix, deserializable or not. -/
def count_threads (store : Store) : Int :=
  ((prefixScan store threadScanPfx).length : Int)

/-- Model of `get_replies` (main.rs 319-329): scan the
`format!("reply_{}", parent_id)` prefix, keep records that deserialize. -/
def get_replies (store : Store) (parent_id : Int) : List Reply :=
  (prefixScan store (replyScanPfx parent_id)).filterMap (fun kv => replyFromJson kv.2)

/-- Model of `count_replies` (main.rs 332-334). -/
def count_replies (store : Store) (parent_id : Int) : Int :=
  ((prefixScan store (replyScanPfx parent_id)).length : Int)

/-- The thread lookup performed by `view_thread` (main.rs 157-161):
missing key or undeserializable bytes both give `none`. -/
def get_thread_by_id (store : Store) (id : Int) : Option Thread :=
  (storeGet store (threadKey id)).bind threadFromJson

/-- Error taxonomy of the create handlers: `validation` is the
BadRequest on an empty required field, `storage` the InternalServerError
on a failed insert (never produced by this pure store model). -/
inductive CreateError where
  | validation : CreateError
  | storage : CreateError
deriving DecidableEq

/-- Model of the persistence core of `create_thread` (main.rs 249-273):
reject when title or message trims to empty, otherwise allocate
`count_threads + 1`, build the record from the trimmed fields and write
it under `threadKey`.  The returned store is the post-state. -/
def create_thread (store : Store) (title message : String)
    (image_url : Option String) (now : Int) : Store × Except CreateError Thread :=
  if (rustTrim title).isEmpty || (rustTrim message).isEmpty then
    (store, Except.error CreateError.validation)
  else
    let thread_id := count_threads store + 1
    let t : Thread := ⟨thread_id, rustTrim title, rustTrim message, now, image_url⟩
    (storeInsert store (threadKey thread_id) (threadToJson t), Except.ok t)

/-- Model of `create_reply` (main.rs 277-316): reject an empty trimmed
message, allocate `count_replies(parent) + 1`, write the reply, then
best-effort touch the parent thread: if its record is present and
deserializes, rewrite it with `last_updated = now`, else do nothing. -/
def create_reply (store : Store) (parent_id : Int) (message : String)
    (now : Int) : Store × Except CreateError Reply :=
  let message := rustTrim message
  if message.isEmpty then
    (store, Except.error CreateError.validation)
  else
    let reply_id := count_replies store parent_id + 1
    let r : Reply := ⟨reply_id, message⟩
    let s1 := storeInsert store (replyKey parent_id reply_id) (replyToJson r)
    let s2 :=
      match storeGet s1 (threadKey parent_id) with
      | some bytes =>
        match threadFromJson bytes with
        | some t =>
          storeInsert s1 (threadKey parent_id)
            (threadToJson ⟨t.id, t.title, t.message, now, t.image_url⟩)
        | none => s1
      | none => s1
    (s2, Except.ok r)

/-- Model of `(total_threads as f64 / page_size as f64).ceil() as i32`
(main.rs 105).  For the reachable inputs (a nonnegative `i32` count and
page size 10) the f64 computation is exact ceiling division, which this
definition performs. -/
def totalPagesCalc (total page_size : Int) : Int :=
  Int.ofNat ((total.toNat + page_size.toNat - 1) / page_size.toNat)

/-- The page clamp of `homepage` (main.rs 107-113). -/
def clampPage (page_number total_pages : Int) : Int :=
  if page_number < 1 then 1
  else if total_pages < page_number ∧ 0 < total_pages then total_pages
  else page_number

/-- The pagination arithmetic of `homepage` (main.rs 104-117) applied to
the already sorted thread list: compute `total_pages`, clamp the page,
and slice `[start_index .. end_index]`.  `none` models the panic of
`&threads[start..end]` when `start > end`. -/
def paginate (threads : List Thread) (page_number page_size : Int) :
    Option (List Thread × Int × Int) :=
  let total_pages := totalPagesCalc (threads.length : Int) page_size
  let current := clampPage page_number total_pages
  let start := ((current - 1) * page_size).toNat
  let stop := min (start + page_size.toNat) threads.length
  if start ≤ stop then
    some ((threads.drop start).take (stop - start), current, total_pages)
  else none

example : paginate [] 2 10 = none := by decide
example : get_replies [(replyKey 10 1, replyToJson ⟨1, "x"⟩)] 1 = [⟨1, "x"⟩] := by decide
example : count_replies [(replyKey 10 1, replyToJson ⟨1, "x"⟩)] 1 = 1 := by decide
example : threadFromJson (threadToJson ⟨1, "a", "b", 5, none⟩) = some ⟨1, "a", "b", 5, none⟩ := by decide
example : rustTrim "  hi " = "hi" := by decide
example : (create_thread [] " t " "m" none 7).2 = Except.ok ⟨1, "t", "m", 7, none⟩ := by rfl

/-! Helper lemmas about the decimal rendering, keys, and the store. -/

/-- Numeric value of a decimal digit character. -/
def digitVal (c : Char) : Nat := c.toNat - 48

/-- Value of a most-significant-first digit string. -/
def charsVal (cs : List Char) : Nat :=
  cs.foldl (fun a c => a * 10 + digitVal c) 0

theorem foldl_digits_append (xs : List Char) (c : Char) (a : Nat) :
    List.foldl (fun a c => a * 10 + digitVal c) a (xs ++ [c]) =
      (List.foldl (fun a c => a * 10 + digitVal c) a xs) * 10 + digitVal c := by
  simp [List.foldl_append]

theorem digitVal_digitChar (n : Nat) (h : n < 10) :
    digitVal (Nat.digitChar n) = n := by
  interval_cases n <;> decide

theorem charsVal_natCharsAux (fuel : Nat) :
    ∀ n : Nat, n < fuel → charsVal (natCharsAux fuel n) = n := by
  induction fuel with
  | zero => intro n h; omega
  | succ fuel ih =>
    intro n h
    by_cases h10 : n < 10
    · simp [natCharsAux, h10, charsVal, digitVal_digitChar n h10]
    · have hdiv : n / 10 < fuel := by omega
      simp only [natCharsAux, h10, if_false, charsVal, foldl_digits_append]
      have := ih (n / 10) hdiv
      simp only [charsVal] at this
      rw [this, digitVal_digitChar (n % 10) (by omega)]
      omega

theorem charsVal_natChars (n : Nat) : charsVal (natChars n) = n :=
  charsVal_natCharsAux (n + 1) n (by omega)

theorem natChars_injective {m n : Nat} (h : natChars m = natChars n) : m = n := by
  have := charsVal_natChars m
  rw [h, charsVal_natChars n] at this
  omega

theorem threadKey_inj_nonneg {i j : Int} (hi : 0 ≤ i) (hj : 0 ≤ j)
    (h : threadKey i = threadKey j) : i = j := by
  unfold threadKey intChars at h
  rw [if_neg (by omega), if_neg (by omega)] at h
  have h2 := natChars_injective (List.append_cancel_left h)
  omega

theorem storeGet_eq_some_mem (s : Store) (k : List Char) (v : Json)
    (h : storeGet s k = some v) : (k, v) ∈ s := by
  induction s with
  | nil => simp [storeGet] at h
  | cons kv rest ih =>
    obtain ⟨k0, v0⟩ := kv
    simp only [storeGet] at h
    by_cases he : k0 = k
    · rw [if_pos he] at h
      injection h with h
      subst he; subst h
      exact List.mem_cons_self _ _
    · rw [if_neg he] at h
      exact List.mem_cons_of_mem _ (ih h)

theorem storeGet_insert_ne (s : Store) (k1 k2 : List Char) (v : Json)
    (hne : k1 ≠ k2) : storeGet (storeInsert s k1 v) k2 = storeGet s k2 := by
  induction s with
  | nil => simp [storeInsert, storeGet, hne]
  | cons kv rest ih =>
    obtain ⟨k0, v0⟩ := kv
    by_cases he : k0 = k1
    · subst he
      simp only [storeInsert, if_pos rfl, storeGet]
      rw [if_neg hne, if_neg hne]
    · simp only [storeInsert, if_neg he, storeGet]
      by_cases he2 : k0 = k2
      · rw [if_pos he2, if_pos he2]
      · rw [if_neg he2, if_neg he2, ih]

theorem storeInsert_of_get_none (s : Store) (k : List Char) (v : Json)
    (h : storeGet s k = none) : storeInsert s k v = s ++ [(k, v)] := by
  induction s with
  | nil => simp [storeInsert]
  | cons kv rest ih =>
    obtain ⟨k0, v0⟩ := kv
    simp only [storeGet] at h
    by_cases he : k0 = k
    · rw [if_pos he] at h
      exact (Option.some_ne_none v0 h).elim
    · rw [if_neg he] at h
      simp only [storeInsert, if_neg he, List.cons_append]
      rw [ih h]

theorem isPrefixOf_append_self (p l : List Char) :
    p.isPrefixOf (p ++ l) = true := by
  rw [List.isPrefixOf_iff_prefix]
  exact List.prefix_append p l

theorem replyKey_ne_threadKey (pid rid i : Int) :
    replyKey pid rid ≠ threadKey i := by
  simp [replyKey, threadKey, threadScanPfx]

/-! Claim theorems. -/

/-- A store holding one well-formed reply under parent 1 and one under
parent 10; parent 10's key `reply_10_1` starts with the bytes
`reply_1` that `get_replies` scans for parent 1. -/
def crossParentStore : Store :=
  [(replyKey 1 1, replyToJson ⟨1, "a"⟩), (replyKey 10 1, replyToJson ⟨1, "b"⟩)]

/-- C1: the claim says `listForThread(parentId)` returns exactly the
well-formed replies stored under keys `reply_parentId_i` and no reply
of a different parent.  The code scans `format!("reply_{}", parent_id)`
with no trailing underscore, so the scan for parent 1 also matches the
key `reply_10_1`: `get_replies` for parent 1 returns parent 10's reply
as well, refuting the claim at this store. -/
theorem reply_scan_leaks_other_parents :
    get_replies crossParentStore 1 = [⟨1, "a"⟩, ⟨1, "b"⟩] ∧
    get_replies crossParentStore 10 = [⟨1, "b"⟩] := by
  constructor <;> rfl

/-- A store whose only record is a reply under parent 10. -/
def parentTenStore : Store := [(replyKey 10 1, replyToJson ⟨1, "b"⟩)]

/-- C2: the claim says the id allocated for a new reply equals the
count of replies stored under that parent plus 1, so parent 1's first
reply should get id 1.  But `count_replies` scans the underscore-less
prefix `reply_1`, which also counts the record keyed `reply_10_1`:
with no replies at all under parent 1 the count is 1 and the first
reply created under parent 1 is allocated id 2, refuting the claim. -/
theorem reply_id_alloc_counts_other_parents :
    count_replies parentTenStore 1 = 1 ∧
    (create_reply parentTenStore 1 "hello" 0).2 = Except.ok ⟨2, "hello"⟩ := by
  constructor <;> rfl

/-- C3: the claim says `paginate` never fails for any collection and
requested page.  With zero threads and requested page 2 the code leaves
the page unclamped (`total_pages = 0`), computes `start_index = 10`,
`end_index = 0`, and `&threads[10..0]` panics; the model returns `none`
exactly in that panic case, refuting the claim. -/
theorem paginate_panics_on_page_two_of_empty :
    paginate [] 2 10 = none := by rfl

/-- A store whose single record sits under a thread key but holds bytes
that do not deserialize as a `Thread`. -/
def malformedThreadStore : Store := [(threadKey 1, Json.null)]

/-- C10: id allocation counts raw keys, not readable records: the id a
create allocates is 1 plus the raw number of records under the scanned
prefix whether or not they deserialize, listings can only be shorter
than the raw scan, and a store whose only thread record is malformed
lists no threads yet allocates id 2 for the next thread. -/
theorem id_alloc_counts_raw_keys (store : Store) (pid now : Int) (img : Option String) :
    (create_thread store "t" "m" img now).2 =
      Except.ok ⟨((prefixScan store threadScanPfx).length : Int) + 1, "t", "m", now, img⟩ ∧
    (create_reply store pid "m" now).2 =
      Except.ok ⟨((prefixScan store (replyScanPfx pid)).length : Int) + 1, "m"⟩ ∧
    (get_all_threads store).length ≤ (prefixScan store threadScanPfx).length ∧
    get_all_threads malformedThreadStore = [] ∧
    (create_thread malformedThreadStore "t" "m" none 0).2 = Except.ok ⟨2, "t", "m", 0, none⟩ := by
  refine ⟨?_, ?_, List.length_filterMap_le _ _, by decide, by rfl⟩
  · simp [create_thread, count_threads, show rustTrim "t" = "t" from by decide,
      show rustTrim "m" = "m" from by decide, show ("t" : String).isEmpty = false from by decide,
      show ("m" : String).isEmpty = false from by decide]
  · simp [create_reply, count_replies, show rustTrim "m" = "m" from by decide,
      show ("m" : String).isEmpty = false from by decide]

/-- C6: an input whose required field trims to empty (including
whitespace-only) is rejected with a validation error and the store is
left untouched, for thread and reply creates alike; an input whose
required fields are non-empty after trimming never raises the
validation error. -/
theorem create_validation (sA sB sC sD : Store) (titleA msgA titleB msgB msgC msgD : String)
    (imgA imgB : Option String) (nowA nowB nowC nowD pidC pidD : Int)
    (hA : (rustTrim titleA).isEmpty = true ∨ (rustTrim msgA).isEmpty = true)
    (hBt : (rustTrim titleB).isEmpty = false) (hBm : (rustTrim msgB).isEmpty = false)
    (hC : (rustTrim msgC).isEmpty = true)
    (hD : (rustTrim msgD).isEmpty = false) :
    create_thread sA titleA msgA imgA nowA = (sA, Except.error CreateError.validation) ∧
    (create_thread sB titleB msgB imgB nowB).2 ≠ Except.error CreateError.validation ∧
    create_reply sC pidC msgC nowC = (sC, Except.error CreateError.validation) ∧
    (create_reply sD pidD msgD nowD).2 ≠ Except.error CreateError.validation := by
  refine ⟨?_, ?_, ?_, ?_⟩
  · rcases hA with h | h <;> simp [create_thread, h]
  · simp [create_thread, hBt, hBm]
  · simp [create_reply, hC]
  · simp [create_reply, hD]

/-- Witness for C6 at whitespace-only and non-empty concrete inputs. -/
theorem create_validation_witness :
    create_thread [] "  " "x" none 1 = ([], Except.error CreateError.validation) ∧
    (create_thread [] "a" "b" none 2).2 ≠ Except.error CreateError.validation ∧
    create_reply [] 1 " " 3 = ([], Except.error CreateError.validation) ∧
    (create_reply [] 1 "ok" 4).2 ≠ Except.error CreateError.validation :=
  create_validation [] [] [] [] "  " "x" "a" "b" " " "ok" none none 1 2 3 4 1 1
    (Or.inl (by decide)) (by decide) (by decide) (by decide) (by decide)

/-- C8: malformed records are treated as absent: a single-record read
returns absent when the key is missing or when the stored bytes fail to
deserialize, and the scans omit an undeserializable record while still
returning every well-formed record on either side of it, never failing
the whole listing. -/
theorem malformed_as_absent (sA sB s1 s2 s3 s4 : Store) (idA idB pid : Int)
    (vB vTbad vTgood vRbad vRgood : Json) (kT kR : List Char) (t : Thread) (r : Reply)
    (hA : storeGet sA (threadKey idA) = none)
    (hB : storeGet sB (threadKey idB) = some vB)
    (hBmal : threadFromJson vB = none)
    (hTbad : threadFromJson vTbad = none)
    (hTgood : threadFromJson vTgood = some t)
    (hkT : threadScanPfx.isPrefixOf kT = true)
    (hRbad : replyFromJson vRbad = none)
    (hRgood : replyFromJson vRgood = some r)
    (hkR : (replyScanPfx pid).isPrefixOf kR = true) :
    get_thread_by_id sA idA = none ∧
    get_thread_by_id sB idB = none ∧
    get_all_threads (s1 ++ (kT, vTbad) :: s2) = get_all_threads (s1 ++ s2) ∧
    get_all_threads (s1 ++ (kT, vTgood) :: s2) =
      get_all_threads s1 ++ t :: get_all_threads s2 ∧
    get_replies (s3 ++ (kR, vRbad) :: s4) pid = get_replies (s3 ++ s4) pid ∧
    get_replies (s3 ++ (kR, vRgood) :: s4) pid =
      get_replies s3 pid ++ r :: get_replies s4 pid := by
  refine ⟨?_, ?_, ?_, ?_, ?_, ?_⟩
  · simp [get_thread_by_id, hA]
  · simp [get_thread_by_id, hB, hBmal]
  · simp [get_all_threads, prefixScan, List.filter_append, List.filter_cons, hkT,
      List.filterMap_append, List.filterMap_cons, hTbad]
  · simp [get_all_threads, prefixScan, List.filter_append, List.filter_cons, hkT,
      List.filterMap_append, List.filterMap_cons, hTgood]
  · simp [get_replies, prefixScan, List.filter_append, List.filter_cons, hkR,
      List.filterMap_append, List.filterMap_cons, hRbad]
  · simp [get_replies, prefixScan, List.filter_append, List.filter_cons, hkR,
      List.filterMap_append, List.filterMap_cons, hRgood]

/-- Witness for C8 at concrete stores: an empty store, a store with a
malformed thread record, and listings around malformed and well-formed
records. -/
theorem malformed_as_absent_witness :
    get_thread_by_id [] 1 = none ∧
    get_thread_by_id [(threadKey 1, Json.null)] 1 = none ∧
    get_all_threads ([] ++ (threadKey 1, Json.null) :: []) = get_all_threads ([] ++ []) ∧
    get_all_threads ([] ++ (threadKey 1, threadToJson ⟨1, "a", "b", 0, none⟩) :: []) =
      get_all_threads [] ++ ⟨1, "a", "b", 0, none⟩ :: get_all_threads [] ∧
    get_replies ([] ++ (replyKey 5 1, Json.null) :: []) 5 = get_replies ([] ++ []) 5 ∧
    get_replies ([] ++ (replyKey 5 1, replyToJson ⟨1, "m"⟩) :: []) 5 =
      get_replies [] 5 ++ ⟨1, "m"⟩ :: get_replies [] 5 :=
  malformed_as_absent [] [(threadKey 1, Json.null)] [] [] [] [] 1 1 5
    Json.null Json.null (threadToJson ⟨1, "a", "b", 0, none⟩) Json.null (replyToJson ⟨1, "m"⟩)
    (threadKey 1) (replyKey 5 1) ⟨1, "a", "b", 0, none⟩ ⟨1, "m"⟩
    (by rfl) (by rfl) (by rfl) (by rfl) (by rfl) (by decide) (by rfl) (by rfl) (by decide)

/-- C7: after the reply record is written, the touch of the parent is
best-effort: when the parent record is missing or does not deserialize
the touch is skipped and the reply create still succeeds with only the
reply inserted; when the parent is well-formed the create succeeds and
the parent record is rewritten with every field unchanged except
`last_updated`, which becomes the current time. -/
theorem reply_touch_best_effort (sA sB : Store) (pid tnow : Int) (msg : String)
    (t : Thread) (vB : Json)
    (hmsg : (rustTrim msg).isEmpty = false)
    (hA : (storeGet sA (threadKey pid)).bind threadFromJson = none)
    (hBget : storeGet sB (threadKey pid) = some vB)
    (hBparse : threadFromJson vB = some t) :
    ((create_reply sA pid msg tnow).2 =
      Except.ok ⟨count_replies sA pid + 1, rustTrim msg⟩ ∧
     (create_reply sA pid msg tnow).1 =
      storeInsert sA (replyKey pid (count_replies sA pid + 1))
        (replyToJson ⟨count_replies sA pid + 1, rustTrim msg⟩)) ∧
    ((create_reply sB pid msg tnow).2 =
      Except.ok ⟨count_replies sB pid + 1, rustTrim msg⟩ ∧
     (create_reply sB pid msg tnow).1 =
      storeInsert
        (storeInsert sB (replyKey pid (count_replies sB pid + 1))
          (replyToJson ⟨count_replies sB pid + 1, rustTrim msg⟩))
        (threadKey pid)
        (threadToJson ⟨t.id, t.title, t.message, tnow, t.image_url⟩)) := by
  have hgA : storeGet
      (storeInsert sA (replyKey pid (count_replies sA pid + 1))
        (replyToJson ⟨count_replies sA pid + 1, rustTrim msg⟩))
      (threadKey pid) = storeGet sA (threadKey pid) :=
    storeGet_insert_ne sA _ _ _ (replyKey_ne_threadKey pid _ pid)
  have hgB : storeGet
      (storeInsert sB (replyKey pid (count_replies sB pid + 1))
        (replyToJson ⟨count_replies sB pid + 1, rustTrim msg⟩))
      (threadKey pid) = storeGet sB (threadKey pid) :=
    storeGet_insert_ne sB _ _ _ (replyKey_ne_threadKey pid _ pid)
  refine ⟨⟨?_, ?_⟩, ⟨?_, ?_⟩⟩
  · simp [create_reply, hmsg]
  · simp only [create_reply, hmsg, Bool.false_eq_true, if_false, hgA]
    cases hsg : storeGet sA (threadKey pid) with
    | none => simp
    | some v =>
      rw [hsg] at hA
      simp only [Option.some_bind] at hA
      simp [hA]
  · simp [create_reply, hmsg]
  · simp only [create_reply, hmsg, Bool.false_eq_true, if_false, hgB, hBget, hBparse]

/-- Witness for C7: a store with no parent record, and a store whose
parent thread 3 is well-formed. -/
theorem reply_touch_best_effort_witness :
    ((create_reply [] 3 " hi " 42).2 =
      Except.ok ⟨count_replies [] 3 + 1, rustTrim " hi "⟩ ∧
     (create_reply [] 3 " hi " 42).1 =
      storeInsert [] (replyKey 3 (count_replies [] 3 + 1))
        (replyToJson ⟨count_replies [] 3 + 1, rustTrim " hi "⟩)) ∧
    ((create_reply [(threadKey 3, threadToJson ⟨3, "a", "b", 0, none⟩)] 3 " hi " 42).2 =
      Except.ok ⟨count_replies [(threadKey 3, threadToJson ⟨3, "a", "b", 0, none⟩)] 3 + 1, rustTrim " hi "⟩ ∧
     (create_reply [(threadKey 3, threadToJson ⟨3, "a", "b", 0, none⟩)] 3 " hi " 42).1 =
      storeInsert
        (storeInsert [(threadKey 3, threadToJson ⟨3, "a", "b", 0, none⟩)]
          (replyKey 3 (count_replies [(threadKey 3, threadToJson ⟨3, "a", "b", 0, none⟩)] 3 + 1))
          (replyToJson ⟨count_replies [(threadKey 3, threadToJson ⟨3, "a", "b", 0, none⟩)] 3 + 1, rustTrim " hi "⟩))
        (threadKey 3)
        (threadToJson ⟨(⟨3, "a", "b", 0, none⟩ : Thread).id, (⟨3, "a", "b", 0, none⟩ : Thread).title,
          (⟨3, "a", "b", 0, none⟩ : Thread).message, 42, (⟨3, "a", "b", 0, none⟩ : Thread).image_url⟩)) :=
  reply_touch_best_effort [] [(threadKey 3, threadToJson ⟨3, "a", "b", 0, none⟩)] 3 42 " hi "
    ⟨3, "a", "b", 0, none⟩ (threadToJson ⟨3, "a", "b", 0, none⟩)
    (by decide) (by rfl) (by rfl) (by decide)

/-- C4: the pagination arithmetic: `total_pages` is the ceiling of
count over page size (characterized as the least nonnegative multiple
bound), the requested page clamps below 1 to 1, above `total_pages` to
`total_pages` when positive, and is taken as given in range; slicing
follows `[(current-1)*size, min(start+size, count))`; for 25 threads
page 1 holds items 0-9, page 3 holds items 20-24, page 4 yields page
3's result, and page 0 or negative yields page 1's result. -/
theorem paginate_clamp_slice_spec (ts : List Thread) (p q1 q2 q3 tp0 c : Int)
    (h25 : ts.length = 25) (hp : p ≤ 0)
    (hq1 : q1 < 1) (hq2 : tp0 < q2) (htp0 : 0 < tp0)
    (hq3a : 1 ≤ q3) (hq3b : q3 ≤ tp0) (hc : 0 ≤ c) :
    paginate ts 1 10 = some (ts.take 10, 1, 3) ∧
    (ts.take 10).length = 10 ∧
    paginate ts 3 10 = some ((ts.drop 20).take 5, 3, 3) ∧
    ((ts.drop 20).take 5).length = 5 ∧
    paginate ts 4 10 = paginate ts 3 10 ∧
    paginate ts p 10 = paginate ts 1 10 ∧
    clampPage q1 tp0 = 1 ∧
    clampPage q2 tp0 = tp0 ∧
    clampPage q3 tp0 = q3 ∧
    c ≤ 10 * totalPagesCalc c 10 ∧
    10 * (totalPagesCalc c 10 - 1) < c ∧
    0 ≤ totalPagesCalc c 10 := by
  have htp : totalPagesCalc ((25 : Nat) : Int) 10 = 3 := by decide
  refine ⟨?_, ?_, ?_, ?_, ?_, ?_, ?_, ?_, ?_, ?_, ?_, ?_⟩
  · simp only [paginate, h25, htp, show clampPage 1 3 = 1 from rfl]
    norm_num [Nat.min_def, show ((10 : Int)).toNat = 10 from rfl]
  · simp [h25]
  · simp only [paginate, h25, htp, show clampPage 3 3 = 3 from rfl]
    norm_num [Nat.min_def, show ((10 : Int)).toNat = 10 from rfl,
      show ((20 : Int)).toNat = 20 from rfl]
  · simp [h25]
  · simp only [paginate, h25, htp, show clampPage 4 3 = 3 from rfl,
      show clampPage 3 3 = 3 from rfl]
  · simp only [paginate, h25, htp,
      show clampPage p 3 = 1 from by simp only [clampPage]; rw [if_pos (by omega)],
      show clampPage 1 3 = 1 from rfl]
  · simp only [clampPage]
    rw [if_pos hq1]
  · simp only [clampPage]
    rw [if_neg (by omega), if_pos ⟨hq2, htp0⟩]
  · simp only [clampPage]
    rw [if_neg (by omega), if_neg (by omega)]
  · simp only [totalPagesCalc, Int.ofNat_eq_coe, show ((10 : Int)).toNat = 10 from rfl]
    omega
  · simp only [totalPagesCalc, Int.ofNat_eq_coe, show ((10 : Int)).toNat = 10 from rfl]
    omega
  · simp only [totalPagesCalc, Int.ofNat_eq_coe, show ((10 : Int)).toNat = 10 from rfl]
    omega

/-- A concrete 25-thread collection. -/
def ts25 : List Thread := List.replicate 25 ⟨1, "a", "b", 0, none⟩

/-- Witness for C4 at the 25-thread collection, requested page 0, and
concrete clamp and ceiling instances. -/
theorem paginate_clamp_slice_spec_witness :
    paginate ts25 1 10 = some (ts25.take 10, 1, 3) ∧
    (ts25.take 10).length = 10 ∧
    paginate ts25 3 10 = some ((ts25.drop 20).take 5, 3, 3) ∧
    ((ts25.drop 20).take 5).length = 5 ∧
    paginate ts25 4 10 = paginate ts25 3 10 ∧
    paginate ts25 0 10 = paginate ts25 1 10 ∧
    clampPage 0 3 = 1 ∧
    clampPage 7 3 = 3 ∧
    clampPage 2 3 = 2 ∧
    (25 : Int) ≤ 10 * totalPagesCalc 25 10 ∧
    10 * (totalPagesCalc 25 10 - 1) < 25 ∧
    (0 : Int) ≤ totalPagesCalc 25 10 :=
  paginate_clamp_slice_spec ts25 0 0 7 2 3 25
    (by decide) (by decide) (by decide) (by decide) (by decide) (by decide) (by decide) (by decide)

/-- C9: serializing a `Thread` or `Reply` to its stored form and
deserializing it back yields the original value in every field,
including an absent `image_url`; the hypotheses state that the integer
fields fit their Rust types (`i32` ids, `i64` timestamp), which every
Rust value satisfies by construction. -/
theorem serde_roundtrip (t : Thread) (r : Reply)
    (h1 : -2147483648 ≤ t.id) (h2 : t.id < 2147483648)
    (h3 : -9223372036854775808 ≤ t.last_updated)
    (h4 : t.last_updated < 9223372036854775808)
    (h5 : -2147483648 ≤ r.id) (h6 : r.id < 2147483648) :
    threadFromJson (threadToJson t) = some t ∧
    replyFromJson (replyToJson r) = some r := by
  obtain ⟨i, ttl, msg, lu, img⟩ := t
  obtain ⟨j, rmsg⟩ := r
  simp only at h1 h2 h3 h4 h5 h6
  constructor
  · cases img <;>
      simp [threadToJson, threadFromJson, jsonLookup, asI32, asI64, asStr, asOptStr,
        h1, h2, h3, h4]
  · simp [replyToJson, replyFromJson, jsonLookup, asI32, asStr, h5, h6]

/-- Witness for C9 at a concrete thread without image and a concrete
reply. -/
theorem serde_roundtrip_witness :
    threadFromJson (threadToJson ⟨1, "a", "b", 5, none⟩) = some ⟨1, "a", "b", 5, none⟩ ∧
    replyFromJson (replyToJson ⟨2, "m"⟩) = some ⟨2, "m"⟩ :=
  serde_roundtrip ⟨1, "a", "b", 5, none⟩ ⟨2, "m"⟩
    (by decide) (by decide) (by decide) (by decide) (by decide) (by decide)

/-- One create per input `(title, message, image_url, now)`, performed
sequentially; the second component records the ids allocated by the
creates that succeeded. -/
def runCreates : Store → List (String × String × Option String × Int) → Store × List Int
  | s, [] => (s, [])
  | s, inp :: rest =>
    match create_thread s inp.1 inp.2.1 inp.2.2.1 inp.2.2.2 with
    | (s1, Except.ok t) =>
      let r := runCreates s1 rest
      (r.1, t.id :: r.2)
    | (s1, Except.error _) => runCreates s1 rest

/-- The id sequence `k+1, k+2, ..., k+n`. -/
def seqIds : Int → Nat → List Int
  | _, 0 => []
  | k, Nat.succ n => (k + 1) :: seqIds (k + 1) n

theorem runCreates_ids_aux (inputs : List (String × String × Option String × Int)) :
    ∀ (store : Store) (k : Nat),
    (∀ inp ∈ inputs,
      (rustTrim inp.1).isEmpty = false ∧ (rustTrim inp.2.1).isEmpty = false) →
    (∀ kv ∈ store, threadScanPfx.isPrefixOf kv.1 = true →
      ∃ i : Nat, 1 ≤ i ∧ i ≤ k ∧ kv.1 = threadKey (i : Int)) →
    (prefixScan store threadScanPfx).length = k →
    (runCreates store inputs).2 = seqIds (k : Int) inputs.length := by
  induction inputs with
  | nil => intro store k _ _ _; rfl
  | cons inp rest ih =>
    intro store k hval hinv hlen
    obtain ⟨hta, htb⟩ := hval inp (List.mem_cons_self _ _)
    have hcnt : count_threads store = (k : Int) := by
      simp [count_threads, hlen]
    have hor : ((rustTrim inp.1).isEmpty || (rustTrim inp.2.1).isEmpty) = false := by
      rw [hta, htb]; rfl
    have hct : create_thread store inp.1 inp.2.1 inp.2.2.1 inp.2.2.2 =
        (storeInsert store (threadKey ((k : Int) + 1))
          (threadToJson ⟨(k : Int) + 1, rustTrim inp.1, rustTrim inp.2.1, inp.2.2.2, inp.2.2.1⟩),
         Except.ok ⟨(k : Int) + 1, rustTrim inp.1, rustTrim inp.2.1, inp.2.2.2, inp.2.2.1⟩) := by
      simp [create_thread, hor, hcnt]
    set v := threadToJson
      ⟨(k : Int) + 1, rustTrim inp.1, rustTrim inp.2.1, inp.2.2.2, inp.2.2.1⟩ with hv
    have hpre : threadScanPfx.isPrefixOf (threadKey ((k : Int) + 1)) = true := by
      unfold threadKey
      exact isPrefixOf_append_self _ _
    have hfresh : storeGet store (threadKey ((k : Int) + 1)) = none := by
      cases hsg : storeGet store (threadKey ((k : Int) + 1)) with
      | none => rfl
      | some w =>
        exfalso
        have hmem := storeGet_eq_some_mem _ _ _ hsg
        obtain ⟨i, hi1, hik, hkeq⟩ := hinv _ hmem hpre
        have hcast : ((k : Int) + 1) = (i : Int) :=
          threadKey_inj_nonneg (by positivity) (by positivity) hkeq
        omega
    have hins : storeInsert store (threadKey ((k : Int) + 1)) v =
        store ++ [(threadKey ((k : Int) + 1), v)] :=
      storeInsert_of_get_none _ _ _ hfresh
    have hinv2 : ∀ kv ∈ store ++ [(threadKey ((k : Int) + 1), v)],
        threadScanPfx.isPrefixOf kv.1 = true →
        ∃ i : Nat, 1 ≤ i ∧ i ≤ k + 1 ∧ kv.1 = threadKey (i : Int) := by
      intro kv hm hp
      rcases List.mem_append.1 hm with hmem | hmem
      · obtain ⟨i, hi1, hik, hkeq⟩ := hinv kv hmem hp
        exact ⟨i, hi1, by omega, hkeq⟩
      · refine ⟨k + 1, by omega, by omega, ?_⟩
        have hkv : kv = (threadKey ((k : Int) + 1), v) := by simpa using hmem
        rw [hkv]
        push_cast
        rfl
    have hlen2 : (prefixScan (store ++ [(threadKey ((k : Int) + 1), v)])
        threadScanPfx).length = k + 1 := by
      unfold prefixScan at hlen ⊢
      rw [List.filter_append, List.length_append, hlen]
      simp [hpre]
    have hrun : runCreates store (inp :: rest) =
        ((runCreates (store ++ [(threadKey ((k : Int) + 1), v)]) rest).1,
         ((k : Int) + 1) ::
           (runCreates (store ++ [(threadKey ((k : Int) + 1), v)]) rest).2) := by
      simp only [runCreates, hct, hins]
    rw [hrun]
    have hrest := ih (store ++ [(threadKey ((k : Int) + 1), v)]) (k + 1)
      (fun inp2 hm => hval inp2 (List.mem_cons_of_mem _ hm)) hinv2 hlen2
    simp only [List.length_cons, seqIds, hrest]
    push_cast
    rfl


/-- C5: starting from a store holding no record under the `thread_`
prefix, a sequence of valid creates allocates thread ids exactly
`1, 2, ..., N` in order, each create computing its id as the count of
existing thread records plus 1. -/
theorem thread_ids_sequential (store : Store)
    (inputs : List (String × String × Option String × Int))
    (hstore : ∀ kv ∈ store, threadScanPfx.isPrefixOf kv.1 = false)
    (hval : ∀ inp ∈ inputs,
      (rustTrim inp.1).isEmpty = false ∧ (rustTrim inp.2.1).isEmpty = false) :
    (runCreates store inputs).2 = seqIds 0 inputs.length ∧
    (create_thread store "t" "m" none 0).2 =
      Except.ok ⟨count_threads store + 1, "t", "m", 0, none⟩ := by
  constructor
  · have h0 : (prefixScan store threadScanPfx).length = 0 := by
      have hnil : prefixScan store threadScanPfx = [] :=
        List.filter_eq_nil_iff.2 (fun kv hm => by rw [hstore kv hm]; simp)
      rw [hnil]
      rfl
    have hres := runCreates_ids_aux inputs store 0 hval
      (fun kv hm hp => by rw [hstore kv hm] at hp; cases hp) h0
    simpa using hres
  · simp [create_thread, count_threads, show rustTrim "t" = "t" from by decide,
      show rustTrim "m" = "m" from by decide,
      show ("t" : String).isEmpty = false from by decide,
      show ("m" : String).isEmpty = false from by decide]

/-- Witness for C5: three creates on the empty store allocate ids
1, 2, 3. -/
theorem thread_ids_sequential_witness :
    (runCreates [] [("a", "b", none, 1), ("c", "d", some "u", 2), ("e", "f", none, 3)]).2 =
      seqIds 0 (List.length [("a", "b", none, 1), ("c", "d", some "u", 2), ("e", "f", none, 3)]) ∧
    (create_thread [] "t" "m" none 0).2 =
      Except.ok ⟨count_threads [] + 1, "t", "m", 0, none⟩ :=
  thread_ids_sequential [] [("a", "b", none, 1), ("c", "d", some "u", 2), ("e", "f", none, 3)]
    (by simp) (by decide)
